import Mathlib

/-!
Verification of the ELESS resilience core: a shallow embedding of the
state ledger (`src/core/state_manager.py`), the multi-target database
loader (`src/database/db_loader.py`), the configuration loader
(`src/core/config_loader.py`) and the relevant parts of the processing
loop (`src/cli.py`) and pipeline driver (`src/eless_pipeline.py`),
together with theorems settling the specification claims about them.

Python dictionaries are embedded as association lists in insertion
order: lookup finds the first (unique) matching key, assignment updates
an existing key in place or appends a fresh one, deletion removes the
entry.  Timestamps are modelled by a logical clock carried in the
state.  Exceptions raised by backend connectors are modelled as data
(a predicate on batches saying whether `upsert_batch` raises).
-/

namespace Eless

/-! ## Python dict primitives (insertion-ordered association lists) -/

/-- `d.get(k)` / `d[k]`: first value stored under key `k`. -/
def dictGet {κ α : Type} [DecidableEq κ] (m : List (κ × α)) (k : κ) : Option α :=
  match m with
  | [] => none
  | (k', v) :: rest => if k' = k then some v else dictGet rest k

/-- `d[k] = v`: update in place if the key exists, append otherwise. -/
def dictSet {κ α : Type} [DecidableEq κ] (m : List (κ × α)) (k : κ) (v : α) :
    List (κ × α) :=
  match m with
  | [] => [(k, v)]
  | (k', v') :: rest =>
    if k' = k then (k', v) :: rest else (k', v') :: dictSet rest k v

/-- `del d[k]`: remove the entry stored under key `k`. -/
def dictDelete {κ α : Type} [DecidableEq κ] (m : List (κ × α)) (k : κ) :
    List (κ × α) :=
  match m with
  | [] => []
  | (k', v') :: rest =>
    if k' = k then rest else (k', v') :: dictDelete rest k

/-- `k in d`. -/
def dictContains {κ α : Type} [DecidableEq κ] (m : List (κ × α)) (k : κ) : Bool :=
  (dictGet m k).isSome

theorem dictGet_dictSet_self {κ α : Type} [DecidableEq κ] (m : List (κ × α))
    (k : κ) (v : α) : dictGet (dictSet m k v) k = some v := by
  induction m with
  | nil => simp [dictSet, dictGet]
  | cons hd tl ih =>
    by_cases h : hd.1 = k <;> simp [dictSet, dictGet, h, ih]

theorem dictGet_dictSet_ne {κ α : Type} [DecidableEq κ] (m : List (κ × α))
    (k k' : κ) (v : α) (hne : k ≠ k') : dictGet (dictSet m k v) k' = dictGet m k' := by
  induction m with
  | nil => simp [dictSet, dictGet, hne]
  | cons hd tl ih =>
    by_cases h : hd.1 = k
    · subst h; simp [dictSet, dictGet, hne, Ne.symm hne]
    · by_cases h' : hd.1 = k' <;>
        simp [dictSet, dictGet, h, h', ih, Ne.symm hne]

theorem dictGet_dictDelete_ne {κ α : Type} [DecidableEq κ] (m : List (κ × α))
    (k k' : κ) (hne : k ≠ k') :
    dictGet (dictDelete m k) k' = dictGet m k' := by
  induction m with
  | nil => simp [dictDelete]
  | cons hd tl ih =>
    by_cases h : hd.1 = k
    · subst h
      simp [dictDelete, dictGet, hne]
    · by_cases h' : hd.1 = k' <;>
        simp [dictDelete, dictGet, h, h', ih, Ne.symm hne]

/-! ## StateManager (`src/core/state_manager.py`) -/

/-- The `FileStatus` constants of `state_manager.py`. -/
inductive FileStatus where
  | pending | scanned | chunked | embedded | loaded | error
  deriving DecidableEq, Repr

/-- One manifest entry, as built by `StateManager.add_or_update_file`. -/
structure FileRecord where
  path : String
  timestamp : Nat
  status : FileStatus
  metadata : List (String × String)
  hash : String
  errorCount : Nat
  lastError : Option Nat
  deriving DecidableEq, Repr

/-- The mutable state of a `StateManager`: the in-memory manifest dict,
the last manifest written to disk, a logical clock standing for
`datetime.now()`, and a count of `_save_manifest` calls. -/
structure SMState where
  manifest : List (String × FileRecord)
  disk : List (String × FileRecord)
  clock : Nat
  saveCount : Nat
  deriving DecidableEq, Repr

/-- `StateManager._save_manifest`: write the manifest through to disk. -/
def saveManifest (st : SMState) : SMState :=
  { st with disk := st.manifest, saveCount := st.saveCount + 1 }

/-- `StateManager.get_status`: status of a hash, `PENDING` if unknown. -/
def getStatus (st : SMState) (fileHash : String) : FileStatus :=
  match dictGet st.manifest fileHash with
  | some r => r.status
  | none => FileStatus.pending

/-- `StateManager.add_or_update_file`: create the record if absent, set
status and timestamp, update the path unless it is empty or `"N/A"`,
apply the error bookkeeping, merge metadata, and persist. -/
def addOrUpdateFile (st : SMState) (fileHash filePath : String)
    (status : FileStatus) (metadata : Option (List (String × String))) :
    SMState :=
  let r0 : FileRecord :=
    match dictGet st.manifest fileHash with
    | some r => r
    | none =>
      { path := filePath, timestamp := st.clock, status := FileStatus.pending,
        metadata := [], hash := fileHash, errorCount := 0, lastError := none }
  let r1 := { r0 with status := status, timestamp := st.clock }
  let r2 := { r1 with path := if filePath ≠ "" ∧ filePath ≠ "N/A" then filePath else r1.path }
  let r3 :=
    if status = FileStatus.error then
      { r2 with errorCount := r2.errorCount + 1, lastError := some st.clock }
    else if status = FileStatus.loaded ∨ status = FileStatus.embedded then
      { r2 with errorCount := 0, lastError := none }
    else r2
  let r4 :=
    match metadata with
    | some md => { r3 with metadata := md.foldl (fun acc kv => dictSet acc kv.1 kv.2) r3.metadata }
    | none => r3
  saveManifest { st with manifest := dictSet st.manifest fileHash r4, clock := st.clock + 1 }

/-- `StateManager.reset_file_status`: reset a known file to `PENDING`
with cleared error bookkeeping and persist; report `False` untouched
for an unknown file. -/
def resetFileStatus (st : SMState) (fileHash : String) : Bool × SMState :=
  match dictGet st.manifest fileHash with
  | some r =>
    let r' := { r with status := FileStatus.pending, errorCount := 0,
                       lastError := none, timestamp := st.clock }
    (true, saveManifest { st with manifest := dictSet st.manifest fileHash r',
                                  clock := st.clock + 1 })
  | none => (false, st)

/-- The archiver interface consumed by `cleanup_orphaned_states`:
`load_chunks` / `load_vectors` return `None` when nothing is cached. -/
structure Archiver where
  loadChunks : String → Option (List (List Int))
  loadVectors : String → Option (List (List Int))

/-- The orphan test of `cleanup_orphaned_states`: a status that claims
cached data exists, with neither chunks nor vectors retrievable. -/
def isOrphan (a : Archiver) (kv : String × FileRecord) : Bool :=
  (kv.2.status = FileStatus.chunked ∨ kv.2.status = FileStatus.embedded ∨
      kv.2.status = FileStatus.loaded) ∧
    (a.loadChunks kv.1).isNone ∧ (a.loadVectors kv.1).isNone

/-- `StateManager.cleanup_orphaned_states`: collect the orphaned hashes,
delete them from the manifest, persist if anything was removed, and
return how many entries were removed. -/
def cleanupOrphanedStates (st : SMState) (a : Archiver) : Nat × SMState :=
  let orphaned := ((st.manifest.filter (isOrphan a)).map (·.1))
  let m' := orphaned.foldl (fun m h => dictDelete m h) st.manifest
  let st' := { st with manifest := m' }
  let st'' := if orphaned.isEmpty then st' else saveManifest st'
  (orphaned.length, st'')

/-! ## DatabaseLoader (`src/database/db_loader.py`) -/

/-- The metadata carried by an embedded chunk; `load_data` reads the
`file_hash` and `chunk_id` fields. -/
structure ChunkMeta where
  fileHash : String
  chunkId : String
  deriving DecidableEq, Repr

/-- One element of the embedded-chunk generator fed to `load_data`. -/
structure EmbChunk where
  vector : List Int
  metadata : ChunkMeta
  deriving DecidableEq, Repr

/-- The `db_entry` built inside `load_data` for the connectors. -/
structure DbEntry where
  id : String
  vector : List Int
  metadata : ChunkMeta
  deriving DecidableEq, Repr

/-- An active backend connector.  `failsOn b = true` models
`upsert_batch(b)` raising an exception; `false` models acceptance. -/
structure Connector where
  name : String
  failsOn : List DbEntry → Bool

/-- The `db_entry` constructed from one generator element. -/
def toDbEntry (c : EmbChunk) : DbEntry :=
  { id := c.metadata.chunkId, vector := c.vector, metadata := c.metadata }

/-- `DatabaseLoader._upsert_batch`: fan the batch out to every active
connector; when one raises, flip the run flag of every file hash in the
batch to `False`.  Returns the updated flag dict. -/
def upsertBatch (conns : List Connector) (batch : List DbEntry)
    (flags : List (String × Bool)) : List (String × Bool) :=
  conns.foldl
    (fun fl c =>
      if c.failsOn batch then
        batch.foldl (fun fl2 e => dictSet fl2 e.metadata.fileHash false) fl
      else fl)
    flags

/-- The generator loop of `DatabaseLoader.load_data`: accumulate entries
into `batch`, register each file hash in the flag dict (keeping an
existing flag), and dispatch whenever the batch reaches `batchSize`.
Also records the dispatched batches in order. -/
def loadDataLoop (conns : List Connector) (batchSize : Nat) :
    List EmbChunk → List DbEntry → List (String × Bool) →
      List (List DbEntry) →
      List DbEntry × List (String × Bool) × List (List DbEntry)
  | [], batch, flags, trace => (batch, flags, trace)
  | c :: rest, batch, flags, trace =>
    let e := toDbEntry c
    let batch' := batch ++ [e]
    let flags' := dictSet flags c.metadata.fileHash
      ((dictGet flags c.metadata.fileHash).getD true)
    if batchSize ≤ batch'.length then
      loadDataLoop conns batchSize rest []
        (upsertBatch conns batch' flags') (trace ++ [batch'])
    else
      loadDataLoop conns batchSize rest batch' flags' trace

/-- The flag dict `file_hashes_in_run` as it stands after the loop and
the final partial dispatch of `load_data`, together with the list of
batches handed to `_upsert_batch`, in dispatch order. -/
def loadDataFlags (conns : List Connector) (batchSize : Nat)
    (input : List EmbChunk) : List (String × Bool) × List (List DbEntry) :=
  match loadDataLoop conns batchSize input [] [] [] with
  | (batch, flags, trace) =>
    if batch.isEmpty then (flags, trace)
    else (upsertBatch conns batch flags, trace ++ [batch])

/-- `DatabaseLoader._update_file_status`: files whose flag survived as
`True` are marked `LOADED`; the rest are reverted to `EMBEDDED`. -/
def updateFileStatus (st : SMState) (flags : List (String × Bool)) : SMState :=
  flags.foldl
    (fun s kv =>
      if kv.2 then
        addOrUpdateFile s kv.1 "N/A (DB loaded)" FileStatus.loaded none
      else
        addOrUpdateFile s kv.1 "N/A (DB load failed, vectors retained)"
          FileStatus.embedded none)
    st

/-- `DatabaseLoader.load_data` acting on the state manager: with no
active connectors it logs a warning and returns untouched; otherwise it
batches the input, fans every batch out, and updates every touched
file's status. -/
def loadData (conns : List Connector) (batchSize : Nat) (st : SMState)
    (input : List EmbChunk) : SMState :=
  if conns.isEmpty then st
  else updateFileStatus st (loadDataFlags conns batchSize input).1

/-! ## Connector initialization (`DatabaseLoader._initialize_connectors`) -/

/-- Outcome of instantiating and connecting one configured target:
`connect()` may raise, `check_connection()` may report failure, or the
connector becomes active. -/
inductive ConnOutcome where
  | raiseOnConnect | checkFails | ok
  deriving DecidableEq, Repr

/-- The `connections` entry for one target name, as read by
`_initialize_connectors`, together with the behavior the instantiated
connector would exhibit. -/
structure ConnSpec where
  dbType : Option String
  outcome : ConnOutcome
  failsOn : List DbEntry → Bool

/-- The `databases` section of the configuration. -/
structure DbsConfig where
  targets : List String
  connections : List (String × ConnSpec)
  batchSize : Nat

/-- `DatabaseLoader._initialize_connectors`: walk the configured
targets in order; skip a target with no connection entry, a missing
`type`, a type not in the availability map, a raising `connect()` or a
failing `check_connection()`; the rest become active connectors. -/
def initializeConnectors (cfg : DbsConfig) (availableTypes : List String) :
    List Connector :=
  cfg.targets.foldl
    (fun acc name =>
      match dictGet cfg.connections name with
      | none => acc
      | some spec =>
        match spec.dbType with
        | none => acc
        | some t =>
          if t ∈ availableTypes then
            match spec.outcome with
            | ConnOutcome.ok => acc ++ [⟨name, spec.failsOn⟩]
            | _ => acc
          else acc)
    []

/-! ## Pipeline driver (`src/eless_pipeline.py`) -/

/-- The state visible to a pipeline run: the state manager plus the
cache queried through the archiver.  `load_data` never touches the
archiver. -/
structure PipelineState where
  sm : SMState
  cache : Archiver

/-- `load_data` seen at the pipeline level: it updates the ledger
through the state manager and never touches the archiver's cache. -/
def loadDataP (conns : List Connector) (batchSize : Nat)
    (ps : PipelineState) (input : List EmbChunk) : PipelineState :=
  { ps with sm := loadData conns batchSize ps.sm input }

/-- How `ElessPipeline.run_process` can end: the body is wrapped in a
`try`/`except` that catches every exception, so a run either completes
or would die on an uncaught error (never produced by this body). -/
inductive RunOutcome where
  | completed | fatal
  deriving DecidableEq, Repr

/-- `ElessPipeline.run_process`: re-initialize the connectors, then
drive the lazy scan → chunk → embed stream (abstracted here as the
list of embedded chunks it would yield) into `load_data`; every
exception is caught, so the run always completes. -/
def runProcess (cfg : DbsConfig) (availableTypes : List String)
    (ps : PipelineState) (input : List EmbChunk) :
    RunOutcome × PipelineState :=
  let conns := initializeConnectors cfg availableTypes
  (RunOutcome.completed, loadDataP conns cfg.batchSize ps input)

/-! ## The chunking step of the CLI processing loop (`src/cli.py`) -/

/-- The stage-transition site of Step 1 of the per-file loop in the
`process` command (`src/cli.py`, around lines 348-366): a `LOADED`
file is skipped; a file at `PENDING` — or at `EMBEDDED` when the
`--resume` flag is not set — is re-chunked and its status set to
`CHUNKED`; the other statuses resume from cached artifacts without a
status write in this step.  `chunkResult = none` models
`dispatcher.parse_and_chunk` raising, which the loop's `except` clause
catches without touching the ledger. -/
def cliChunkStage (st : SMState) (fileId filePath : String) (resume : Bool)
    (chunkResult : Option (List String)) : SMState :=
  let status := getStatus st fileId
  if status = FileStatus.loaded then st
  else if status = FileStatus.pending ∨
      (status = FileStatus.embedded ∧ ¬resume) then
    match chunkResult with
    | some _ => addOrUpdateFile st fileId filePath FileStatus.chunked none
    | none => st
  else st

/-! ## ConfigLoader (`src/core/config_loader.py`)

The configuration is a dict of section dicts.  Python object identity
is modelled with an explicit heap: a top-level dict maps section names
to heap addresses, the heap maps addresses to the section contents.
`dict.copy()` copies the address list and therefore shares the section
objects, exactly as the shallow copy in `get_final_config` does. -/

/-- A primitive configuration value (int, string, bool or `None`). -/
inductive ConfigVal where
  | num (n : Int) | str (s : String) | bool (b : Bool) | none
  deriving DecidableEq, Repr

/-- The contents of one configuration section. -/
abbrev SectionDict := List (String × ConfigVal)

/-- A top-level configuration dict: section name → heap address. -/
abbrev TopDict := List (String × Nat)

/-- The heap of section objects, with a fresh-address counter. -/
structure ConfigHeap where
  cells : List (Nat × SectionDict)
  next : Nat
  deriving DecidableEq, Repr

/-- The inner level of `deep_merge`: the leaves of the override are
primitive values, so every key falls into the `else` branch
`target[key] = value`. -/
def sectionMerge (tgt src : SectionDict) : SectionDict :=
  src.foldl (fun t kv => dictSet t kv.1 kv.2) tgt

/-- `deep_merge(target, source)` for a two-level configuration: a
section present in both is merged in place inside the heap cell the
target references (mutating every dict that shares it); a section
missing from the target is bound to a freshly allocated object holding
the source section. -/
def deepMergeTop (h : ConfigHeap) (target : TopDict)
    (source : List (String × SectionDict)) : ConfigHeap × TopDict :=
  source.foldl
    (fun acc kv =>
      match dictGet acc.2 kv.1 with
      | some addr =>
        match dictGet acc.1.cells addr with
        | some cell =>
          ({ acc.1 with cells := dictSet acc.1.cells addr (sectionMerge cell kv.2) },
            acc.2)
        | Option.none => acc
      | Option.none =>
        ({ cells := dictSet acc.1.cells acc.1.next kv.2, next := acc.1.next + 1 },
          dictSet acc.2 kv.1 acc.1.next))
    (h, target)

/-- The persistent state of a `ConfigLoader`: its stored
`_default_config` and the heap of section objects. -/
structure ConfigLoaderState where
  heap : ConfigHeap
  defaultConfig : TopDict
  deriving DecidableEq, Repr

/-- `ConfigLoader.get_final_config` with no user configuration file:
start from `self._default_config.copy()` (a shallow copy sharing every
section object) and, when the CLI passed `chunk_size`, deep-merge
`{"chunking": {"chunk_size": v}}` into it. -/
def getFinalConfig (s : ConfigLoaderState) (chunkSize : Option Int) :
    ConfigLoaderState × TopDict :=
  let finalConfig := s.defaultConfig
  match chunkSize with
  | some v =>
    let merged := deepMergeTop s.heap finalConfig
      [("chunking", [("chunk_size", ConfigVal.num v)])]
    ({ s with heap := merged.1 }, merged.2)
  | Option.none => (s, finalConfig)

/-- Read `config[section][key]` through the heap. -/
def configLookup (h : ConfigHeap) (cfg : TopDict) (sect key : String) :
    Option ConfigVal :=
  match dictGet cfg sect with
  | some addr =>
    match dictGet h.cells addr with
    | some cell => dictGet cell key
    | Option.none => Option.none
  | Option.none => Option.none

/-- The embedded default configuration returned by
`get_default_config()` in `src/core/default_config.py`, laid out in
the heap with one object per section. -/
def defaultConfigSections : List (String × SectionDict) :=
  [("parallel_processing",
    [("max_workers", ConfigVal.none), ("mode", ConfigVal.str "auto"),
     ("enable_parallel_files", ConfigVal.bool true),
     ("enable_parallel_chunks", ConfigVal.bool true),
     ("enable_parallel_embedding", ConfigVal.bool true),
     ("enable_parallel_database", ConfigVal.bool true),
     ("chunk_batch_size", ConfigVal.num 100),
     ("file_batch_size", ConfigVal.num 10),
     ("adaptive_workers", ConfigVal.bool true),
     ("resource_monitoring", ConfigVal.bool true)]),
   ("embedding",
    [("batch_size", ConfigVal.num 32),
     ("model", ConfigVal.str "all-MiniLM-L6-v2"),
     ("dimension", ConfigVal.num 384), ("normalize", ConfigVal.bool true),
     ("cache_embeddings", ConfigVal.bool true),
     ("model_path", ConfigVal.none), ("use_gpu", ConfigVal.bool false),
     ("quantize", ConfigVal.bool false)]),
   ("chunking",
    [("chunk_size", ConfigVal.num 512), ("chunk_overlap", ConfigVal.num 128),
     ("min_chunk_size", ConfigVal.num 64),
     ("skip_short_chunks", ConfigVal.bool true),
     ("overlap_strategy", ConfigVal.str "simple"),
     ("text_splitter", ConfigVal.str "sentence"),
     ("language", ConfigVal.str "en")]),
   ("resource_limits",
    [("memory_warning_percent", ConfigVal.num 80),
     ("memory_critical_percent", ConfigVal.num 90),
     ("cpu_high_percent", ConfigVal.num 85),
     ("min_memory_mb", ConfigVal.num 256),
     ("max_file_size_mb", ConfigVal.num 100),
     ("max_memory_percent", ConfigVal.num 95),
     ("throttle_threshold", ConfigVal.num 85)]),
   ("cache",
    [("directory", ConfigVal.str ".eless_cache"),
     ("max_size_mb", ConfigVal.num 1024), ("retention_days", ConfigVal.num 7),
     ("compression", ConfigVal.bool true),
     ("manifest_file", ConfigVal.str "cache_manifest.json"),
     ("chunk_format", ConfigVal.str "json"),
     ("max_chunk_size_mb", ConfigVal.num 10)]),
   ("database",
    [("type", ConfigVal.str "sqlite"), ("path", ConfigVal.str "eless.db"),
     ("batch_size", ConfigVal.num 100), ("max_retries", ConfigVal.num 3),
     ("timeout", ConfigVal.num 30), ("chunk_table", ConfigVal.str "chunks"),
     ("metadata_table", ConfigVal.str "metadata"),
     ("vector_dimension", ConfigVal.num 384)]),
   ("logging",
    [("level", ConfigVal.str "INFO"),
     ("format", ConfigVal.str "%(asctime)s | %(levelname)-8s | %(name)-12s | %(message)s"),
     ("directory", ConfigVal.str ".eless_logs"),
     ("max_size_mb", ConfigVal.num 10), ("backup_count", ConfigVal.num 5),
     ("file_logging", ConfigVal.bool true),
     ("console_logging", ConfigVal.bool true)]),
   ("security",
    [("enable_encryption", ConfigVal.bool false),
     ("key_file", ConfigVal.none),
     ("hash_algorithm", ConfigVal.str "sha256"),
     ("verify_checksums", ConfigVal.bool true)])]

/-- A fresh `ConfigLoader` built without a configuration file: the
embedded defaults become `self._default_config`, one heap object per
section. -/
def initConfigLoader : ConfigLoaderState :=
  let cells := (defaultConfigSections.enum.map (fun p => (p.1, p.2.2)))
  let top := (defaultConfigSections.enum.map (fun p => (p.2.1, p.1)))
  { heap := { cells := cells, next := defaultConfigSections.length },
    defaultConfig := top }

/-! ## Manifest loading (`StateManager._load_or_init_manifest`) -/

/-- A JSON value, as produced by `json.load`. -/
inductive Json where
  | null
  | bool (b : Bool)
  | num (n : Int)
  | str (s : String)
  | arr (elems : List Json)
  | obj (fields : List (String × Json))

/-- The on-disk manifest file as `_load_or_init_manifest` encounters
it: missing, failing to parse (`json.JSONDecodeError`), or parsing to
some JSON value of arbitrary shape. -/
inductive ManifestFile where
  | absent
  | unparseable
  | parsed (j : Json)

/-- `StateManager._load_or_init_manifest`: a missing file and a file
that fails JSON parsing both yield the empty manifest (the parse error
is caught and logged); any successfully parsed JSON value is returned
as the manifest unchanged, whatever its shape. -/
def loadOrInitManifest (file : ManifestFile) : Json :=
  match file with
  | ManifestFile.absent => Json.obj []
  | ManifestFile.unparseable => Json.obj []
  | ManifestFile.parsed j => j

/-- Whether a JSON value is an object (a Python dict). -/
def Json.isObj : Json → Bool
  | Json.obj _ => true
  | _ => false

/-- The structure the manifest is annotated to have
(`Dict[str, Dict[str, Any]]`): an object all of whose values are
objects. -/
def isExpectedManifestShape : Json → Bool
  | Json.obj fields => fields.all (fun kv => kv.2.isObj)
  | _ => false

/-! ## Observers and basic lemmas -/

/-- The error count stored for a hash (`0` when the hash is unknown,
matching the default a fresh record is created with). -/
def recErrorCount (st : SMState) (fileHash : String) : Nat :=
  match dictGet st.manifest fileHash with
  | some r => r.errorCount
  | none => 0

/-- The `last_error` timestamp stored for a hash (`None` when the hash
is unknown). -/
def recLastError (st : SMState) (fileHash : String) : Option Nat :=
  match dictGet st.manifest fileHash with
  | some r => r.lastError
  | none => none

/-- The position of a stage in the forward order
`PENDING → SCANNED → CHUNKED → EMBEDDED → LOADED`. -/
def stageRank : FileStatus → Nat
  | FileStatus.pending => 0
  | FileStatus.scanned => 1
  | FileStatus.chunked => 2
  | FileStatus.embedded => 3
  | FileStatus.loaded => 4
  | FileStatus.error => 5

theorem getStatus_addOrUpdateFile (st : SMState) (fileHash filePath : String)
    (status : FileStatus) (metadata : Option (List (String × String)))
    (h : String) :
    getStatus (addOrUpdateFile st fileHash filePath status metadata) h =
      if fileHash = h then status else getStatus st h := by
  by_cases he : fileHash = h
  · subst he
    rcases hm : dictGet st.manifest fileHash with _ | r <;>
      rcases metadata with _ | md <;> rcases status <;>
        simp [addOrUpdateFile, getStatus, saveManifest, hm,
          dictGet_dictSet_self]
  · rcases hm : dictGet st.manifest fileHash with _ | r <;>
      rcases metadata with _ | md <;>
        simp [addOrUpdateFile, getStatus, saveManifest, hm, he,
          dictGet_dictSet_ne _ _ _ _ he]

theorem recErrorCount_addOrUpdateFile (st : SMState)
    (fileHash filePath : String) (status : FileStatus)
    (metadata : Option (List (String × String))) :
    recErrorCount (addOrUpdateFile st fileHash filePath status metadata)
        fileHash =
      if status = FileStatus.error then recErrorCount st fileHash + 1
      else if status = FileStatus.loaded ∨ status = FileStatus.embedded then 0
      else recErrorCount st fileHash := by
  rcases hm : dictGet st.manifest fileHash with _ | r <;>
    rcases metadata with _ | md <;> rcases status <;>
      simp [addOrUpdateFile, recErrorCount, saveManifest, hm,
        dictGet_dictSet_self]

theorem recLastError_addOrUpdateFile (st : SMState)
    (fileHash filePath : String) (status : FileStatus)
    (metadata : Option (List (String × String))) :
    recLastError (addOrUpdateFile st fileHash filePath status metadata)
        fileHash =
      if status = FileStatus.error then some st.clock
      else if status = FileStatus.loaded ∨ status = FileStatus.embedded then
        none
      else recLastError st fileHash := by
  rcases hm : dictGet st.manifest fileHash with _ | r <;>
    rcases metadata with _ | md <;> rcases status <;>
      simp [addOrUpdateFile, recLastError, saveManifest, hm,
        dictGet_dictSet_self]

/-! ## Claim C7: error bookkeeping of `add_or_update_file` -/

/-- **C7.** On every `StateManager.add_or_update_file` call: a
transition to `ERROR` increments the record's `error_count` by one and
records the current timestamp in `last_error`; a transition to `LOADED`
or `EMBEDDED` resets `error_count` to `0` and `last_error` to `None`;
a transition to any other stage leaves both fields unchanged. -/
theorem addOrUpdateFile_error_bookkeeping (st : SMState)
    (fileHash filePath : String) (status : FileStatus)
    (metadata : Option (List (String × String))) :
    (status = FileStatus.error →
      recErrorCount (addOrUpdateFile st fileHash filePath status metadata)
          fileHash = recErrorCount st fileHash + 1 ∧
      recLastError (addOrUpdateFile st fileHash filePath status metadata)
          fileHash = some st.clock) ∧
    (status = FileStatus.loaded ∨ status = FileStatus.embedded →
      recErrorCount (addOrUpdateFile st fileHash filePath status metadata)
          fileHash = 0 ∧
      recLastError (addOrUpdateFile st fileHash filePath status metadata)
          fileHash = none) ∧
    (status ≠ FileStatus.error → status ≠ FileStatus.loaded →
      status ≠ FileStatus.embedded →
      recErrorCount (addOrUpdateFile st fileHash filePath status metadata)
          fileHash = recErrorCount st fileHash ∧
      recLastError (addOrUpdateFile st fileHash filePath status metadata)
          fileHash = recLastError st fileHash) := by
  refine ⟨fun hs => ?_, fun hs => ?_, fun h1 h2 h3 => ?_⟩ <;>
    rw [recErrorCount_addOrUpdateFile, recLastError_addOrUpdateFile]
  · simp [hs]
  · rcases hs with hs | hs <;> simp [hs]
  · simp [h1, h2, h3]

/-- A concrete record and state used to exercise the theorems at a
specific input. -/
def sampleRecord : FileRecord :=
  { path := "/a", timestamp := 0, status := FileStatus.chunked,
    metadata := [], hash := "h", errorCount := 1, lastError := some 0 }

/-- A concrete state holding `sampleRecord` under hash `"h"`. -/
def sampleState : SMState :=
  { manifest := [("h", sampleRecord)], disk := [], clock := 5, saveCount := 0 }

/-- Witness for C7: all three branches exercised on a concrete state
holding one record with `error_count = 1`. -/
theorem addOrUpdateFile_error_bookkeeping_witness :
    (recErrorCount (addOrUpdateFile sampleState "h" "/a" FileStatus.error none)
        "h" = 2) ∧
    (recErrorCount (addOrUpdateFile sampleState "h" "/a" FileStatus.loaded none)
        "h" = 0) ∧
    (recErrorCount (addOrUpdateFile sampleState "h" "/a" FileStatus.chunked none)
        "h" = 1) := by
  refine ⟨?_, ?_, ?_⟩
  · have h := (addOrUpdateFile_error_bookkeeping sampleState
      "h" "/a" FileStatus.error none).1 rfl
    rw [h.1]; decide
  · have h := (addOrUpdateFile_error_bookkeeping sampleState
      "h" "/a" FileStatus.loaded none).2.1 (Or.inl rfl)
    exact h.1
  · have h := (addOrUpdateFile_error_bookkeeping sampleState
      "h" "/a" FileStatus.chunked none).2.2
      (by decide) (by decide) (by decide)
    rw [h.1]; decide

/-! ## Claim C10: `reset_file_status` -/

/-- **C10.** `StateManager.reset_file_status` on an unknown fingerprint
returns `False` and leaves the entire state — manifest, disk copy,
clock and save counter — untouched; on a known fingerprint it returns
`True`, sets the status to `PENDING`, clears `error_count` and
`last_error`, persists the manifest, and leaves every other entry
unchanged. -/
theorem resetFileStatus_spec (st : SMState) (fileHash : String) :
    (dictGet st.manifest fileHash = none →
      resetFileStatus st fileHash = (false, st)) ∧
    (∀ r, dictGet st.manifest fileHash = some r →
      (resetFileStatus st fileHash).1 = true ∧
      getStatus (resetFileStatus st fileHash).2 fileHash =
        FileStatus.pending ∧
      recErrorCount (resetFileStatus st fileHash).2 fileHash = 0 ∧
      recLastError (resetFileStatus st fileHash).2 fileHash = none ∧
      (resetFileStatus st fileHash).2.disk =
        (resetFileStatus st fileHash).2.manifest ∧
      ∀ g, fileHash ≠ g →
        dictGet (resetFileStatus st fileHash).2.manifest g =
          dictGet st.manifest g) := by
  constructor
  · intro h
    simp [resetFileStatus, h]
  · intro r hr
    refine ⟨?_, ?_, ?_, ?_, ?_, ?_⟩ <;>
      simp [resetFileStatus, hr, getStatus, recErrorCount, recLastError,
        saveManifest, dictGet_dictSet_self]
    intro g hg
    exact dictGet_dictSet_ne _ _ _ _ hg

/-- Witness for C10: both branches exercised on `sampleState`, which
holds hash `"h"` and nothing else. -/
theorem resetFileStatus_spec_witness :
    resetFileStatus sampleState "zzz" = (false, sampleState) ∧
    (resetFileStatus sampleState "h").1 = true ∧
    getStatus (resetFileStatus sampleState "h").2 "h" = FileStatus.pending := by
  refine ⟨(resetFileStatus_spec sampleState "zzz").1 (by decide), ?_, ?_⟩
  · exact ((resetFileStatus_spec sampleState "h").2 sampleRecord (by decide)).1
  · exact ((resetFileStatus_spec sampleState "h").2 sampleRecord (by decide)).2.1

/-! ## Claim C4: corrupted manifest handling -/

/-- **C4 counterexample.** The manifest content `[]` — valid JSON that
is not the expected `Dict[str, Dict[str, Any]]` structure — is *not*
discarded by `_load_or_init_manifest`: `json.load` succeeds, no
`JSONDecodeError` is raised, and the array itself becomes the manifest,
so the manager does not start with an empty (dict) manifest. -/
theorem manifest_non_dict_json_kept :
    loadOrInitManifest (ManifestFile.parsed (Json.arr [])) = Json.arr [] ∧
    isExpectedManifestShape (Json.arr []) = false ∧
    (loadOrInitManifest (ManifestFile.parsed (Json.arr []))).isObj = false :=
  ⟨rfl, rfl, rfl⟩

/-- **C4 (amended).** `_load_or_init_manifest` never raises on a
present manifest file whose content fails JSON parsing: the
`JSONDecodeError` is caught and logged and the manager starts with an
empty manifest, exactly as when the file is absent; content that
parses as JSON is kept as the manifest as-is, whatever its shape. -/
theorem loadOrInitManifest_spec :
    loadOrInitManifest ManifestFile.absent = Json.obj [] ∧
    loadOrInitManifest ManifestFile.unparseable = Json.obj [] ∧
    ∀ j, loadOrInitManifest (ManifestFile.parsed j) = j :=
  ⟨rfl, rfl, fun _ => rfl⟩

/-! ## Claim C3: stage monotonicity -/

/-- A concrete record at stage `EMBEDDED`. -/
def embeddedRecord : FileRecord :=
  { path := "/f", timestamp := 0, status := FileStatus.embedded,
    metadata := [], hash := "F", errorCount := 0, lastError := none }

/-- A concrete state whose only file `"F"` is at stage `EMBEDDED`. -/
def embeddedState : SMState :=
  { manifest := [("F", embeddedRecord)], disk := [("F", embeddedRecord)],
    clock := 1, saveCount := 1 }

/-- **C3 counterexample.** The `process` loop in `src/cli.py` moves a
file whose status is `EMBEDDED` *backwards* to `CHUNKED` whenever the
`--resume` flag is not set and chunking succeeds — a regression that is
neither a transition to `ERROR` nor an explicit reset to `PENDING`. -/
theorem cli_rechunk_regression :
    getStatus embeddedState "F" = FileStatus.embedded ∧
    getStatus (cliChunkStage embeddedState "F" "/f" false (some ["c1"])) "F" =
      FileStatus.chunked ∧
    stageRank FileStatus.chunked < stageRank FileStatus.embedded ∧
    FileStatus.chunked ≠ FileStatus.error ∧
    FileStatus.chunked ≠ FileStatus.pending := by
  refine ⟨by decide, by decide, by decide, by decide, by decide⟩

/-- **C3 (amended).** Under the chunking step of the `process` loop, a
file's stage is either unchanged, or moves forward from `PENDING` to
`CHUNKED`, or moves *backward* from `EMBEDDED` to `CHUNKED` — the
latter exactly when `--resume` is not set.  (Transitions to `ERROR`
and explicit resets to `PENDING` happen at other sites.) -/
theorem cliChunkStage_stage_transitions (st : SMState)
    (fileId filePath : String) (resume : Bool)
    (chunkRes : Option (List String)) (F : String) :
    getStatus (cliChunkStage st fileId filePath resume chunkRes) F =
        getStatus st F ∨
      (getStatus st F = FileStatus.pending ∧
        getStatus (cliChunkStage st fileId filePath resume chunkRes) F =
          FileStatus.chunked) ∨
      (getStatus st F = FileStatus.embedded ∧ resume = false ∧
        getStatus (cliChunkStage st fileId filePath resume chunkRes) F =
          FileStatus.chunked) := by
  by_cases hl : getStatus st fileId = FileStatus.loaded
  · left
    simp only [cliChunkStage]
    rw [if_pos hl]
  · by_cases hc : getStatus st fileId = FileStatus.pending ∨
        (getStatus st fileId = FileStatus.embedded ∧ ¬resume)
    · rcases chunkRes with _ | chunks
      · left
        simp only [cliChunkStage]
        rw [if_neg hl, if_pos hc]
      · have hres : cliChunkStage st fileId filePath resume (some chunks) =
            addOrUpdateFile st fileId filePath FileStatus.chunked none := by
          simp only [cliChunkStage]
          rw [if_neg hl, if_pos hc]
        rw [hres, getStatus_addOrUpdateFile]
        by_cases hf : fileId = F
        · subst hf
          simp only [if_pos rfl]
          rcases hc with hp | ⟨heb, hr⟩
          · right; left; exact ⟨hp, rfl⟩
          · right; right
            exact ⟨heb, by simpa using hr, rfl⟩
        · left; simp [hf]
    · left
      simp only [cliChunkStage]
      rw [if_neg hl, if_neg hc]

/-! ## Claim C9: shallow copy in `get_final_config` -/

/-- **C9.** `get_final_config` copies `self._default_config` only
shallowly, and `deep_merge` updates the shared `chunking` section
object in place.  After one call overriding `chunk_size` with `v`, the
loader's stored default configuration itself reads back `v`, and a
second `get_final_config` call with *no* override still reports `v`
instead of the shipped default `512`. -/
theorem getFinalConfig_mutates_defaults (v : Int) :
    configLookup initConfigLoader.heap initConfigLoader.defaultConfig
        "chunking" "chunk_size" = some (ConfigVal.num 512) ∧
    configLookup ((getFinalConfig initConfigLoader (some v)).1).heap
        ((getFinalConfig initConfigLoader (some v)).1).defaultConfig
        "chunking" "chunk_size" = some (ConfigVal.num v) ∧
    configLookup ((getFinalConfig initConfigLoader (some v)).1).heap
        (getFinalConfig ((getFinalConfig initConfigLoader (some v)).1)
          Option.none).2
        "chunking" "chunk_size" = some (ConfigVal.num v) ∧
    (v ≠ 512 →
      configLookup ((getFinalConfig initConfigLoader (some v)).1).heap
        (getFinalConfig ((getFinalConfig initConfigLoader (some v)).1)
          Option.none).2
        "chunking" "chunk_size" ≠ some (ConfigVal.num 512)) := by
  refine ⟨rfl, rfl, rfl, ?_⟩
  intro hv h
  have h1 : (some (ConfigVal.num v) : Option ConfigVal) =
      some (ConfigVal.num 512) :=
    Eq.trans
      (rfl :
        (some (ConfigVal.num v) : Option ConfigVal) =
          configLookup ((getFinalConfig initConfigLoader (some v)).1).heap
            (getFinalConfig ((getFinalConfig initConfigLoader (some v)).1)
              Option.none).2
            "chunking" "chunk_size").symm.symm
      h
  have h2 : ConfigVal.num v = ConfigVal.num 512 := Option.some.inj h1
  have h3 : v = 512 := by injection h2
  exact hv h3

/-- Witness for C9: overriding `chunk_size` to `999` once makes the
override sticky across a later override-free call. -/
theorem getFinalConfig_mutates_defaults_witness :
    configLookup ((getFinalConfig initConfigLoader (some 999)).1).heap
        (getFinalConfig ((getFinalConfig initConfigLoader (some 999)).1)
          Option.none).2
        "chunking" "chunk_size" = some (ConfigVal.num 999) ∧
    configLookup ((getFinalConfig initConfigLoader (some 999)).1).heap
        (getFinalConfig ((getFinalConfig initConfigLoader (some 999)).1)
          Option.none).2
        "chunking" "chunk_size" ≠ some (ConfigVal.num 512) :=
  ⟨(getFinalConfig_mutates_defaults 999).2.2.1,
    (getFinalConfig_mutates_defaults 999).2.2.2 (by decide)⟩

/-! ## Claim C6: orphan cleanup -/

theorem foldl_dictDelete_cons {κ α : Type} [DecidableEq κ] (kv : κ × α)
    (m : List (κ × α)) (ks : List κ) (h : kv.1 ∉ ks) :
    List.foldl dictDelete (kv :: m) ks = kv :: List.foldl dictDelete m ks := by
  induction ks generalizing m with
  | nil => rfl
  | cons k rest ih =>
    have hne : kv.1 ≠ k := fun e => h (e ▸ List.mem_cons_self _ _)
    simp only [List.foldl_cons]
    rw [show dictDelete (kv :: m) k = kv :: dictDelete m k from by
      simp [dictDelete, hne]]
    exact ih _ (fun hmem => h (List.mem_cons_of_mem _ hmem))

theorem foldl_dictDelete_filter {κ α : Type} [DecidableEq κ]
    (p : κ × α → Bool) (m : List (κ × α)) (h : (m.map Prod.fst).Nodup) :
    List.foldl dictDelete m ((m.filter p).map Prod.fst) =
      m.filter (fun kv => !(p kv)) := by
  induction m with
  | nil => rfl
  | cons kv rest ih =>
    have h' := List.nodup_cons.mp (by simpa only [List.map_cons] using h)
    by_cases hp : p kv
    · have e1 : (kv :: rest).filter p = kv :: rest.filter p := by
        simp [List.filter_cons, hp]
      have e2 : (kv :: rest).filter (fun kv => !(p kv)) =
          rest.filter (fun kv => !(p kv)) := by
        simp [List.filter_cons, hp]
      rw [e1, e2, List.map_cons, List.foldl_cons]
      rw [show dictDelete (kv :: rest) kv.1 = rest from by simp [dictDelete]]
      exact ih h'.2
    · have e1 : (kv :: rest).filter p = rest.filter p := by
        simp [List.filter_cons, hp]
      have e2 : (kv :: rest).filter (fun kv => !(p kv)) =
          kv :: rest.filter (fun kv => !(p kv)) := by
        simp [List.filter_cons, hp]
      have hks : kv.1 ∉ (rest.filter p).map Prod.fst := by
        intro hmem
        rcases List.mem_map.mp hmem with ⟨x, hx, hfst⟩
        exact h'.1
          (hfst ▸ List.mem_map_of_mem Prod.fst (List.mem_of_mem_filter hx))
      rw [e1, e2, foldl_dictDelete_cons kv rest _ hks]
      rw [ih h'.2]

theorem dictGet_filter {κ α : Type} [DecidableEq κ] (q : κ × α → Bool)
    (m : List (κ × α)) (hnd : (m.map Prod.fst).Nodup) (k : κ) (r : α)
    (hget : dictGet m k = some r) (hq : q (k, r) = true) :
    dictGet (m.filter q) k = some r := by
  induction m with
  | nil => cases hget
  | cons kv rest ih =>
    have h' := List.nodup_cons.mp (by simpa only [List.map_cons] using hnd)
    by_cases he : kv.1 = k
    · have hv : kv.2 = r := by simpa [dictGet, he] using hget
      have hkv : kv = (k, r) := by
        cases kv; simp_all
      subst hkv
      simp [List.filter_cons, hq, dictGet]
    · have hget' : dictGet rest k = some r := by
        simpa [dictGet, he] using hget
      by_cases hqkv : q kv <;>
        simp [List.filter_cons, hqkv, dictGet, he, ih h'.2 hget']

/-- **C6.** `cleanup_orphaned_states` removes exactly the manifest
entries whose status is `CHUNKED`, `EMBEDDED` or `LOADED` and for which
the archiver can retrieve neither chunks nor vectors; it returns how
many it removed, and every other entry — `PENDING` and `ERROR` entries
and every entry with at least one artifact — survives with its record
unchanged. -/
theorem cleanupOrphanedStates_spec (st : SMState) (a : Archiver)
    (h : (st.manifest.map Prod.fst).Nodup) :
    (cleanupOrphanedStates st a).2.manifest =
      st.manifest.filter (fun kv => !(isOrphan a kv)) ∧
    (cleanupOrphanedStates st a).1 =
      (st.manifest.filter (isOrphan a)).length ∧
    ∀ F r, dictGet st.manifest F = some r → isOrphan a (F, r) = false →
      dictGet (cleanupOrphanedStates st a).2.manifest F = some r := by
  have hm : (cleanupOrphanedStates st a).2.manifest =
      st.manifest.filter (fun kv => !(isOrphan a kv)) := by
    show (if ((st.manifest.filter (isOrphan a)).map (·.1)).isEmpty
        then _ else _ : SMState).manifest = _
    split <;>
      simpa [saveManifest] using foldl_dictDelete_filter (isOrphan a) st.manifest h
  refine ⟨hm, by simp [cleanupOrphanedStates], ?_⟩
  intro F r hget hq
  rw [hm]
  exact dictGet_filter _ st.manifest h F r hget (by simp [hq])

/-- Witness for C6 on a two-entry manifest: the `CHUNKED` entry with no
artifacts is removed, the `PENDING` entry survives. -/
theorem cleanupOrphanedStates_spec_witness :
    ((((sampleState.manifest.map Prod.fst).Nodup) ∧
      (cleanupOrphanedStates sampleState
        ⟨fun _ => Option.none, fun _ => Option.none⟩).1 = 1) ∧
      (cleanupOrphanedStates sampleState
        ⟨fun _ => Option.none, fun _ => Option.none⟩).2.manifest = []) := by
  have h := cleanupOrphanedStates_spec sampleState
    ⟨fun _ => Option.none, fun _ => Option.none⟩ (by decide)
  refine ⟨⟨by decide, ?_⟩, ?_⟩
  · rw [h.2.1]; decide
  · rw [h.1]; decide

/-! ## Flag bookkeeping of `load_data` -/

/-- Whether a batch contains an entry of fingerprint `F`. -/
def batchHasHash (b : List DbEntry) (F : String) : Bool :=
  b.any (fun e => e.metadata.fileHash == F)

/-- Whether some active connector raises on this batch. -/
def batchFails (conns : List Connector) (b : List DbEntry) : Bool :=
  conns.any (fun c => c.failsOn b)

/-- The value the run flag of fingerprint `F` holds after a stretch of
the `load_data` loop that dispatched `newBatches` and consumed entries
with hashes `inputHashes`, starting from the flag dict `flags0`. -/
def flagAfter (conns : List Connector) (newBatches : List (List DbEntry))
    (inputHashes : List String) (flags0 : List (String × Bool))
    (F : String) : Option Bool :=
  if newBatches.any (fun b => batchHasHash b F && batchFails conns b) then
    some false
  else if inputHashes.contains F then some ((dictGet flags0 F).getD true)
  else dictGet flags0 F

theorem dictGet_eq_none_of_not_mem {κ α : Type} [DecidableEq κ]
    (m : List (κ × α)) (k : κ) (h : k ∉ m.map Prod.fst) :
    dictGet m k = none := by
  induction m with
  | nil => rfl
  | cons kv rest ih =>
    have hne : kv.1 ≠ k := fun e => h (by simp [e])
    simp only [dictGet, hne, if_false]
    exact ih (fun hm => h (by simp [hm]))

theorem mem_keys_dictSet {κ α : Type} [DecidableEq κ] (m : List (κ × α))
    (k : κ) (v : α) (x : κ) (h : x ∈ (dictSet m k v).map Prod.fst) :
    x ∈ m.map Prod.fst ∨ x = k := by
  induction m with
  | nil => simpa [dictSet] using h
  | cons kv rest ih =>
    by_cases he : kv.1 = k
    · simp [dictSet, he] at h
      rcases h with h | h
      · exact Or.inr h
      · exact Or.inl (by simp only [List.map_cons, List.mem_cons]; right; simpa using h)
    · simp only [dictSet, he, if_false, List.map_cons, List.mem_cons] at h
      rcases h with h | h
      · exact Or.inl (by simp [h])
      · rcases ih h with h | h
        · exact Or.inl (by simp [h])
        · exact Or.inr h

theorem nodup_dictSet {κ α : Type} [DecidableEq κ] (m : List (κ × α))
    (k : κ) (v : α) (h : (m.map Prod.fst).Nodup) :
    ((dictSet m k v).map Prod.fst).Nodup := by
  induction m with
  | nil => simp [dictSet]
  | cons kv rest ih =>
    have h' := List.nodup_cons.mp (by simpa only [List.map_cons] using h)
    by_cases he : kv.1 = k
    · simpa only [dictSet, he, if_pos, List.map_cons] using
        (by simpa only [List.map_cons] using h : (kv.1 :: rest.map Prod.fst).Nodup)
    · simp only [dictSet, he, if_false, List.map_cons]
      refine List.nodup_cons.mpr ⟨?_, ih h'.2⟩
      intro hmem
      rcases mem_keys_dictSet rest k v kv.1 hmem with hm | hm
      · exact h'.1 hm
      · exact he hm

theorem nodup_setFalse (b : List DbEntry) :
    ∀ fl : List (String × Bool), (fl.map Prod.fst).Nodup →
      (((b.foldl (fun fl2 e => dictSet fl2 e.metadata.fileHash false) fl).map
        Prod.fst).Nodup) := by
  induction b with
  | nil => intro fl h; exact h
  | cons e rest ih =>
    intro fl h
    exact ih _ (nodup_dictSet fl _ false h)

theorem nodup_upsertBatch (conns : List Connector) (b : List DbEntry) :
    ∀ fl : List (String × Bool), (fl.map Prod.fst).Nodup →
      ((upsertBatch conns b fl).map Prod.fst).Nodup := by
  induction conns with
  | nil => intro fl h; exact h
  | cons c cs ih =>
    intro fl h
    have e : upsertBatch (c :: cs) b fl =
        upsertBatch cs b (if c.failsOn b then
          b.foldl (fun fl2 e => dictSet fl2 e.metadata.fileHash false) fl
        else fl) := rfl
    rw [e]
    by_cases hc : c.failsOn b
    · simp only [hc, if_pos]
      exact ih _ (nodup_setFalse b fl h)
    · simp only [hc, if_false]
      exact ih _ h

theorem dictGet_setFalse (b : List DbEntry) :
    ∀ (fl : List (String × Bool)) (F : String),
      dictGet (b.foldl (fun fl2 e => dictSet fl2 e.metadata.fileHash false) fl)
          F =
        if batchHasHash b F then some false else dictGet fl F := by
  induction b with
  | nil => intro fl F; simp [batchHasHash]
  | cons e rest ih =>
    intro fl F
    simp only [List.foldl_cons]
    rw [ih]
    by_cases he : e.metadata.fileHash = F
    · by_cases hr : batchHasHash rest F <;>
        simp [batchHasHash, he, hr, dictGet_dictSet_self]
    · simp [batchHasHash, he, dictGet_dictSet_ne _ _ _ _ he]

theorem dictGet_upsertBatch (b : List DbEntry) :
    ∀ (conns : List Connector) (fl : List (String × Bool)) (F : String),
      dictGet (upsertBatch conns b fl) F =
        if batchHasHash b F && batchFails conns b then some false
        else dictGet fl F := by
  intro conns
  induction conns with
  | nil => intro fl F; simp [upsertBatch, batchFails]
  | cons c cs ih =>
    intro fl F
    have e : upsertBatch (c :: cs) b fl =
        upsertBatch cs b (if c.failsOn b then
          b.foldl (fun fl2 e => dictSet fl2 e.metadata.fileHash false) fl
        else fl) := rfl
    rw [e, ih]
    by_cases hc : c.failsOn b <;> by_cases hh : batchHasHash b F <;>
      by_cases hcs : batchFails cs b <;>
        simp [batchFails, hc, hh, hcs, dictGet_setFalse]

/-! ## Structure of the `load_data` loop -/

theorem loadDataLoop_trace (conns : List Connector) (bs : Nat) :
    ∀ (input : List EmbChunk) (batch : List DbEntry)
      (flags : List (String × Bool)) (t : List (List DbEntry)),
      loadDataLoop conns bs input batch flags t =
        ((loadDataLoop conns bs input batch flags []).1,
          (loadDataLoop conns bs input batch flags []).2.1,
          t ++ (loadDataLoop conns bs input batch flags []).2.2) := by
  intro input
  induction input with
  | nil => intro batch flags t; simp [loadDataLoop]
  | cons c rest ih =>
    intro batch flags t
    simp only [loadDataLoop]
    by_cases hb : bs ≤ (batch ++ [toDbEntry c]).length
    · rw [if_pos hb, if_pos hb]
      simp only [List.nil_append]
      rw [ih _ _ (t ++ [batch ++ [toDbEntry c]]),
        ih _ _ ([batch ++ [toDbEntry c]])]
      simp
    · rw [if_neg hb, if_neg hb]
      exact ih _ _ t

theorem loadDataLoop_join (conns : List Connector) (bs : Nat) :
    ∀ (input : List EmbChunk) (batch : List DbEntry)
      (flags : List (String × Bool)),
      ((loadDataLoop conns bs input batch flags []).2.2).flatten ++
          (loadDataLoop conns bs input batch flags []).1 =
        batch ++ input.map toDbEntry := by
  intro input
  induction input with
  | nil => intro batch flags; simp [loadDataLoop]
  | cons c rest ih =>
    intro batch flags
    simp only [loadDataLoop]
    by_cases hb : bs ≤ (batch ++ [toDbEntry c]).length
    · rw [if_pos hb]
      simp only [List.nil_append]
      rw [loadDataLoop_trace conns bs rest [] _ [batch ++ [toDbEntry c]]]
      dsimp only
      rw [List.flatten_append, List.append_assoc, ih]
      simp
    · rw [if_neg hb, ih]
      simp

theorem loadDataLoop_sizes (conns : List Connector) (bs : Nat)
    (hbs : 1 ≤ bs) :
    ∀ (input : List EmbChunk) (batch : List DbEntry)
      (flags : List (String × Bool)), batch.length < bs →
      (∀ b ∈ (loadDataLoop conns bs input batch flags []).2.2,
        b.length = bs) ∧
      (loadDataLoop conns bs input batch flags []).1.length < bs := by
  intro input
  induction input with
  | nil =>
    intro batch flags h
    constructor
    · intro b hb
      simp [loadDataLoop] at hb
    · simpa [loadDataLoop] using h
  | cons c rest ih =>
    intro batch flags h
    simp only [loadDataLoop]
    by_cases hb : bs ≤ (batch ++ [toDbEntry c]).length
    · rw [if_pos hb]
      simp only [List.nil_append]
      rw [loadDataLoop_trace conns bs rest [] _ [batch ++ [toDbEntry c]]]
      dsimp only
      have hlen : (batch ++ [toDbEntry c]).length = bs := by
        simp only [List.length_append, List.length_cons,
          List.length_nil] at hb ⊢
        omega
      have hrec := ih []
        (upsertBatch conns (batch ++ [toDbEntry c])
          (dictSet flags c.metadata.fileHash
            ((dictGet flags c.metadata.fileHash).getD true)))
        (by simpa using hbs)
      constructor
      · intro b hbmem
        rcases List.mem_append.mp hbmem with hm | hm
        · rw [List.mem_singleton.mp hm]
          exact hlen
        · exact hrec.1 b hm
      · exact hrec.2
    · rw [if_neg hb]
      exact ih _ _ (Nat.lt_of_not_le hb)

theorem nodup_loadDataLoop (conns : List Connector) (bs : Nat) :
    ∀ (input : List EmbChunk) (batch : List DbEntry)
      (flags : List (String × Bool)), (flags.map Prod.fst).Nodup →
      (((loadDataLoop conns bs input batch flags []).2.1).map
        Prod.fst).Nodup := by
  intro input
  induction input with
  | nil => intro batch flags h; simpa [loadDataLoop] using h
  | cons c rest ih =>
    intro batch flags h
    simp only [loadDataLoop]
    by_cases hb : bs ≤ (batch ++ [toDbEntry c]).length
    · rw [if_pos hb]
      simp only [List.nil_append]
      rw [loadDataLoop_trace conns bs rest [] _ [batch ++ [toDbEntry c]]]
      dsimp only
      exact ih _ _ (nodup_upsertBatch conns _ _ (nodup_dictSet _ _ _ h))
    · rw [if_neg hb]
      exact ih _ _ (nodup_dictSet _ _ _ h)

theorem loadDataLoop_flags (conns : List Connector) (bs : Nat) :
    ∀ (input : List EmbChunk) (batch : List DbEntry)
      (flags : List (String × Bool)) (F : String),
      dictGet (loadDataLoop conns bs input batch flags []).2.1 F =
        flagAfter conns (loadDataLoop conns bs input batch flags []).2.2
          (input.map (fun c => c.metadata.fileHash)) flags F := by
  intro input
  induction input with
  | nil =>
    intro batch flags F
    simp [loadDataLoop, flagAfter]
  | cons c rest ih =>
    intro batch flags F
    simp only [loadDataLoop]
    by_cases hb : bs ≤ (batch ++ [toDbEntry c]).length
    · rw [if_pos hb]
      simp only [List.nil_append]
      rw [loadDataLoop_trace conns bs rest [] _ [batch ++ [toDbEntry c]]]
      dsimp only
      rw [ih]
      by_cases hX : ((loadDataLoop conns bs rest []
          (upsertBatch conns (batch ++ [toDbEntry c])
            (dictSet flags c.metadata.fileHash
              ((dictGet flags c.metadata.fileHash).getD true))) []).2.2).any
          (fun b => batchHasHash b F && batchFails conns b)
      · simp [flagAfter, hX]
      · by_cases hB : batchHasHash (batch ++ [toDbEntry c]) F &&
            batchFails conns (batch ++ [toDbEntry c])
        · have hg : dictGet (upsertBatch conns (batch ++ [toDbEntry c])
              (dictSet flags c.metadata.fileHash
                ((dictGet flags c.metadata.fileHash).getD true))) F =
              some false := by
            rw [dictGet_upsertBatch]
            simp [hB]
          by_cases hrh : (rest.map (fun c => c.metadata.fileHash)).contains F <;>
            simp [flagAfter, hX, hB, hrh, hg]
        · have hg : dictGet (upsertBatch conns (batch ++ [toDbEntry c])
              (dictSet flags c.metadata.fileHash
                ((dictGet flags c.metadata.fileHash).getD true))) F =
              dictGet (dictSet flags c.metadata.fileHash
                ((dictGet flags c.metadata.fileHash).getD true)) F := by
            rw [dictGet_upsertBatch]
            simp [hB]
          by_cases hFH : c.metadata.fileHash = F
          · subst hFH
            by_cases hrh : (rest.map (fun c => c.metadata.fileHash)).contains
                c.metadata.fileHash <;>
              simp [flagAfter, hX, hB, hrh, hg, dictGet_dictSet_self]
          · have hg2 : dictGet (dictSet flags c.metadata.fileHash
                ((dictGet flags c.metadata.fileHash).getD true)) F =
                dictGet flags F := dictGet_dictSet_ne _ _ _ _ hFH
            by_cases hrh : (rest.map (fun c => c.metadata.fileHash)).contains
                F <;>
              simp [flagAfter, hX, hB, hrh, hg, hg2, hFH, Ne.symm hFH]
    · rw [if_neg hb]
      rw [ih]
      by_cases hX : ((loadDataLoop conns bs rest (batch ++ [toDbEntry c])
          (dictSet flags c.metadata.fileHash
            ((dictGet flags c.metadata.fileHash).getD true)) []).2.2).any
          (fun b => batchHasHash b F && batchFails conns b)
      · simp [flagAfter, hX]
      · by_cases hFH : c.metadata.fileHash = F
        · subst hFH
          by_cases hrh : (rest.map (fun c => c.metadata.fileHash)).contains
              c.metadata.fileHash <;>
            simp [flagAfter, hX, hrh, dictGet_dictSet_self]
        · have hg2 : dictGet (dictSet flags c.metadata.fileHash
              ((dictGet flags c.metadata.fileHash).getD true)) F =
              dictGet flags F := dictGet_dictSet_ne _ _ _ _ hFH
          by_cases hrh : (rest.map (fun c => c.metadata.fileHash)).contains
              F <;>
            simp [flagAfter, hX, hrh, hg2, hFH, Ne.symm hFH]

theorem dictGet_loadDataFlags (conns : List Connector) (bs : Nat)
    (input : List EmbChunk) (F : String) :
    dictGet (loadDataFlags conns bs input).1 F =
      if ((loadDataFlags conns bs input).2).any
          (fun b => batchHasHash b F && batchFails conns b) then some false
      else if (input.map (fun c => c.metadata.fileHash)).contains F then
        some true
      else none := by
  unfold loadDataFlags
  rcases hres : loadDataLoop conns bs input [] [] [] with ⟨batch, flags, trace⟩
  have hf := loadDataLoop_flags conns bs input [] [] F
  rw [hres] at hf
  dsimp only at hf ⊢
  by_cases hbe : batch.isEmpty
  · rw [if_pos hbe]
    dsimp only
    rw [hf]
    simp [flagAfter, dictGet]
  · rw [if_neg hbe]
    dsimp only
    rw [dictGet_upsertBatch, hf]
    by_cases hP : batchHasHash batch F && batchFails conns batch
    · simp [flagAfter, hP]
    · simp [flagAfter, hP, dictGet]

theorem nodup_loadDataFlags (conns : List Connector) (bs : Nat)
    (input : List EmbChunk) :
    (((loadDataFlags conns bs input).1).map Prod.fst).Nodup := by
  unfold loadDataFlags
  rcases hres : loadDataLoop conns bs input [] [] [] with ⟨batch, flags, trace⟩
  have h := nodup_loadDataLoop conns bs input [] [] (by simp)
  rw [hres] at h
  dsimp only at h ⊢
  by_cases hbe : batch.isEmpty
  · rw [if_pos hbe]
    exact h
  · rw [if_neg hbe]
    exact nodup_upsertBatch conns batch flags h

theorem getStatus_updateFileStatus :
    ∀ (flags : List (String × Bool)) (st : SMState) (F : String),
      (flags.map Prod.fst).Nodup →
      getStatus (updateFileStatus st flags) F =
        match dictGet flags F with
        | some true => FileStatus.loaded
        | some false => FileStatus.embedded
        | none => getStatus st F := by
  intro flags
  induction flags with
  | nil => intro st F _; simp [updateFileStatus, dictGet]
  | cons kv rest ih =>
    intro st F hnd
    have h' := List.nodup_cons.mp (by simpa only [List.map_cons] using hnd)
    have e : updateFileStatus st (kv :: rest) =
        updateFileStatus
          (if kv.2 then
            addOrUpdateFile st kv.1 "N/A (DB loaded)" FileStatus.loaded none
          else
            addOrUpdateFile st kv.1 "N/A (DB load failed, vectors retained)"
              FileStatus.embedded none) rest := rfl
    rw [e, ih _ _ h'.2]
    by_cases hF : kv.1 = F
    · subst hF
      have hnone : dictGet rest kv.1 = none :=
        dictGet_eq_none_of_not_mem rest kv.1 h'.1
      rw [hnone]
      cases hkv2 : kv.2 <;>
        simp [dictGet, hkv2, getStatus_addOrUpdateFile]
    · have hcons : dictGet (kv :: rest) F = dictGet rest F := by
        simp [dictGet, hF]
      rw [hcons]
      rcases hgr : dictGet rest F with _ | b
      · cases hkv2 : kv.2 <;>
          simp [hkv2, getStatus_addOrUpdateFile, hF]
      · cases b <;> rfl

theorem getStatus_loadData (conns : List Connector) (bs : Nat)
    (st : SMState) (input : List EmbChunk) (F : String)
    (hconns : conns ≠ []) :
    getStatus (loadData conns bs st input) F =
      match dictGet (loadDataFlags conns bs input).1 F with
      | some true => FileStatus.loaded
      | some false => FileStatus.embedded
      | none => getStatus st F := by
  unfold loadData
  rw [if_neg (by simpa using hconns)]
  exact getStatus_updateFileStatus _ st F (nodup_loadDataFlags conns bs input)

/-! ## Claim C8: batching of `load_data` -/

/-- **C8.** With at least one active connector and a positive configured
`databases.batch_size`, `load_data` partitions its input stream in
order: the dispatched batches concatenate back to exactly the input
entries (each entry in exactly one dispatched batch, and every batch is
fanned out once to each active connector by `_upsert_batch`), no batch
exceeds the configured size, every batch is non-empty, every batch
before the final one has exactly the configured size (a batch is
dispatched exactly when it reaches it), and the ledger update is the
fold of `_update_file_status` over the accumulated flags. -/
theorem load_data_batching (conns : List Connector) (bs : Nat)
    (input : List EmbChunk) (hbs : 1 ≤ bs) (hconns : conns ≠ []) :
    ((loadDataFlags conns bs input).2).flatten = input.map toDbEntry ∧
    (∀ b ∈ (loadDataFlags conns bs input).2, b.length ≤ bs ∧ b ≠ []) ∧
    (∀ b ∈ ((loadDataFlags conns bs input).2).dropLast, b.length = bs) ∧
    (∀ st : SMState, loadData conns bs st input =
      updateFileStatus st (loadDataFlags conns bs input).1) := by
  have h4 : ∀ st : SMState, loadData conns bs st input =
      updateFileStatus st (loadDataFlags conns bs input).1 := by
    intro st
    unfold loadData
    rw [if_neg (by simpa using hconns)]
  have hjoin := loadDataLoop_join conns bs input [] []
  have hsz := loadDataLoop_sizes conns bs hbs input [] [] (by simpa using hbs)
  have key : ((loadDataFlags conns bs input).2).flatten =
        input.map toDbEntry ∧
      (∀ b ∈ (loadDataFlags conns bs input).2, b.length ≤ bs ∧ b ≠ []) ∧
      (∀ b ∈ ((loadDataFlags conns bs input).2).dropLast, b.length = bs) := by
    unfold loadDataFlags
    rcases hres : loadDataLoop conns bs input [] [] [] with ⟨batch, flags, trace⟩
    rw [hres] at hjoin hsz
    dsimp only at hjoin hsz ⊢
    by_cases hbe : batch.isEmpty
    · rw [if_pos hbe]
      dsimp only
      have hB : batch = [] := by simpa using hbe
      refine ⟨by simpa [hB] using hjoin, ?_, ?_⟩
      · intro b hb
        refine ⟨le_of_eq (hsz.1 b hb), ?_⟩
        intro hnil
        have hlb := hsz.1 b hb
        rw [hnil] at hlb
        simp at hlb
        omega
      · intro b hb
        exact hsz.1 b ((List.dropLast_sublist _).subset hb)
    · rw [if_neg hbe]
      dsimp only
      have hBne : batch ≠ [] := by simpa using hbe
      refine ⟨?_, ?_, ?_⟩
      · rw [List.flatten_append]
        simpa using hjoin
      · intro b hb
        rcases List.mem_append.mp hb with hm | hm
        · refine ⟨le_of_eq (hsz.1 b hm), ?_⟩
          intro hnil
          have hlb := hsz.1 b hm
          rw [hnil] at hlb
          simp at hlb
          omega
        · rw [List.mem_singleton.mp hm]
          exact ⟨Nat.le_of_lt hsz.2, hBne⟩
      · intro b hb
        rw [List.dropLast_concat] at hb
        exact hsz.1 b hb
  exact ⟨key.1, key.2.1, key.2.2, h4⟩

/-! ## Claims C1, C2, C5: fan-out, reversion and fatality -/

/-- **C2 (amended).** During a `load_data` run with at least one active
connector, a fingerprint appearing in the input ends up `LOADED` in
the ledger only if every *active* backend connector — every target of
`databases.targets` that survived `_initialize_connectors` — accepted
(did not raise on) every dispatched batch containing one of its
entries.  A configured target skipped during initialization receives
no batches and does not prevent `LOADED`. -/
theorem loaded_only_if_all_backends_accepted (conns : List Connector)
    (bs : Nat) (st : SMState) (input : List EmbChunk) (F : String)
    (hconns : conns ≠ [])
    (_hF : F ∈ input.map (fun c => c.metadata.fileHash))
    (hloaded : getStatus (loadData conns bs st input) F =
      FileStatus.loaded) :
    ∀ b ∈ (loadDataFlags conns bs input).2,
      (∃ e ∈ b, e.metadata.fileHash = F) →
      ∀ c ∈ conns, c.failsOn b = false := by
  have hchar := dictGet_loadDataFlags conns bs input F
  have hst := getStatus_loadData conns bs st input F hconns
  by_cases hany : ((loadDataFlags conns bs input).2).any
      (fun b => batchHasHash b F && batchFails conns b)
  · rw [if_pos hany] at hchar
    rw [hchar] at hst
    rw [hloaded] at hst
    have hle : FileStatus.loaded = FileStatus.embedded := hst
    exact absurd hle (by decide)
  · intro b hb hhash c hc
    by_contra hfail
    apply hany
    refine List.any_eq_true.mpr ⟨b, hb, ?_⟩
    rw [Bool.and_eq_true]
    constructor
    · simp only [batchHasHash, List.any_eq_true, beq_iff_eq]
      exact hhash
    · simp only [batchFails, List.any_eq_true]
      refine ⟨c, hc, ?_⟩
      cases hx : c.failsOn b
      · exact absurd hx hfail
      · rfl

/-- **C1.** With two or more active backends, if some backend's
`upsert_batch` raises on a dispatched batch containing entries of
fingerprint `F`, then after `load_data` returns `F`'s stage in the
ledger is `EMBEDDED`, not `LOADED`, and the archiver's cache — hence
every cached vector for `F` — is untouched by the run; this holds for
every fingerprint with an entry in the failed batch. -/
theorem load_data_partial_failure_reverts (conns : List Connector)
    (bs : Nat) (ps : PipelineState) (input : List EmbChunk) (F : String)
    (h2 : 2 ≤ conns.length)
    (hfail : ∃ b ∈ (loadDataFlags conns bs input).2,
      (∃ e ∈ b, e.metadata.fileHash = F) ∧ ∃ c ∈ conns, c.failsOn b = true) :
    getStatus (loadDataP conns bs ps input).sm F = FileStatus.embedded ∧
    getStatus (loadDataP conns bs ps input).sm F ≠ FileStatus.loaded ∧
    (loadDataP conns bs ps input).cache = ps.cache := by
  have hconns : conns ≠ [] := by
    intro h
    rw [h] at h2
    simp at h2
  have hchar := dictGet_loadDataFlags conns bs input F
  have hany : ((loadDataFlags conns bs input).2).any
      (fun b => batchHasHash b F && batchFails conns b) = true := by
    rcases hfail with ⟨b, hb, hhash, c, hc, hcf⟩
    refine List.any_eq_true.mpr ⟨b, hb, ?_⟩
    rw [Bool.and_eq_true]
    constructor
    · simp only [batchHasHash, List.any_eq_true, beq_iff_eq]
      exact hhash
    · simp only [batchFails, List.any_eq_true]
      exact ⟨c, hc, hcf⟩
  rw [if_pos hany] at hchar
  have hemb : getStatus (loadData conns bs ps.sm input) F =
      FileStatus.embedded := by
    rw [getStatus_loadData conns bs ps.sm input F hconns, hchar]
  refine ⟨hemb, ?_, rfl⟩
  show getStatus (loadData conns bs ps.sm input) F ≠ FileStatus.loaded
  rw [hemb]
  decide

/-- Modelled from the spec: the outcome of one file's stage
transitions inside the Dispatcher (`src/processing/dispatcher.py` is
not among the provided sources) — the file's processing either
succeeds, reaching a stage, or an exception is raised during a stage
transition. -/
inductive FileOutcome where
  | ok (stage : FileStatus)
  | raised
  deriving Repr

/-- Modelled from the spec: the Dispatcher's per-file exception
boundary (§4.5 of the spec; `src/processing/dispatcher.py` is not
among the provided sources).  "Any exception during a stage transition
is caught at file granularity, recorded as stage ERROR with
incremented error_count": a raising file is recorded `ERROR` through
the state manager, a succeeding file records the stage it reached. -/
def dispatchFile (st : SMState) (f : String × String × FileOutcome) :
    SMState :=
  match f.2.2 with
  | FileOutcome.ok stage => addOrUpdateFile st f.1 f.2.1 stage none
  | FileOutcome.raised =>
    addOrUpdateFile st f.1 f.2.1 FileStatus.error none

/-- Modelled from the spec: the Dispatcher's loop over the scanned
files (`src/processing/dispatcher.py` is not among the provided
sources) — "processing continues with the next file", so the run folds
the per-file boundary over every file. -/
def dispatchAll (st : SMState)
    (files : List (String × String × FileOutcome)) : SMState :=
  files.foldl dispatchFile st

/-- **C5 (amended).** Zero usable backend writers after initialization
is *not* fatal: `run_process` completes with the pipeline state — the
ledger and the cache — entirely untouched (`load_data` logs a warning
and returns before consuming its input); whatever the backends'
failure behaviour is, a run always completes rather than aborting; and
a per-file failure never aborts the run either — the failing file is
recorded as `ERROR` with its `error_count` incremented, and the
dispatcher continues with the remaining files exactly as if it had
started from the state in which the failure was recorded. -/
theorem zero_writers_not_fatal (cfg : DbsConfig) (avail : List String)
    (ps : PipelineState) (input : List EmbChunk) :
    (initializeConnectors cfg avail = [] →
      runProcess cfg avail ps input = (RunOutcome.completed, ps)) ∧
    (runProcess cfg avail ps input).1 = RunOutcome.completed ∧
    (∀ (st : SMState) (pre post : List (String × String × FileOutcome))
        (fileHash filePath : String),
      dispatchAll st
          (pre ++ (fileHash, filePath, FileOutcome.raised) :: post) =
        dispatchAll
          (addOrUpdateFile (dispatchAll st pre) fileHash filePath
            FileStatus.error none) post) ∧
    (∀ (st : SMState) (fileHash filePath : String),
      getStatus (dispatchFile st (fileHash, filePath, FileOutcome.raised))
          fileHash = FileStatus.error ∧
      recErrorCount
          (dispatchFile st (fileHash, filePath, FileOutcome.raised))
          fileHash = recErrorCount st fileHash + 1) := by
  refine ⟨?_, rfl, ?_, ?_⟩
  · intro h
    have e : runProcess cfg avail ps input =
        (RunOutcome.completed,
          loadDataP (initializeConnectors cfg avail) cfg.batchSize ps input) :=
      rfl
    rw [e, h]
    rfl
  · intro st pre post fileHash filePath
    simp [dispatchAll, List.foldl_append, List.foldl_cons, dispatchFile]
  · intro st fileHash filePath
    have e : dispatchFile st (fileHash, filePath, FileOutcome.raised) =
        addOrUpdateFile st fileHash filePath FileStatus.error none := rfl
    constructor
    · rw [e, getStatus_addOrUpdateFile]
      simp
    · rw [e, recErrorCount_addOrUpdateFile]
      simp

/-! ## Concrete scenario used by the witnesses and counterexamples -/

/-- A connector that accepts every batch. -/
def connGood : Connector := { name := "chroma", failsOn := fun _ => false }

/-- A connector whose `upsert_batch` raises exactly on batches touching
fingerprint `"F"`. -/
def connBad : Connector := { name := "faiss", failsOn := fun b => batchHasHash b "F" }

/-- One embedded chunk of fingerprint `h` with chunk id `i`. -/
def sampleChunk (h i : String) : EmbChunk :=
  { vector := [1, 2], metadata := { fileHash := h, chunkId := i } }

/-- Three embedded chunks over two fingerprints. -/
def sampleInput : List EmbChunk :=
  [sampleChunk "F" "F_0", sampleChunk "G" "G_0", sampleChunk "G" "G_1"]

/-- An empty state manager. -/
def emptyState : SMState :=
  { manifest := [], disk := [], clock := 0, saveCount := 0 }

/-- An archiver holding cached vectors for fingerprint `"F"` only. -/
def sampleArchiver : Archiver :=
  { loadChunks := fun _ => Option.none,
    loadVectors := fun h => if h = "F" then some [[1, 2]] else Option.none }

/-- The pipeline state built from `emptyState` and `sampleArchiver`. -/
def psSample : PipelineState := { sm := emptyState, cache := sampleArchiver }

/-- A `databases` configuration whose single target exists and is
available but whose `connect()` raises, leaving zero usable writers. -/
def noWriterCfg : DbsConfig :=
  { targets := ["chroma"],
    connections := [("chroma",
      { dbType := some "chroma", outcome := ConnOutcome.raiseOnConnect,
        failsOn := fun _ => false })],
    batchSize := 64 }

/-- **C5 counterexample.** With zero usable backend writers the run
does not fail fatally: `run_process` completes normally and the ledger
is untouched — the claim that an initialization failure aborts the run
is false on this code path. -/
theorem zero_writers_run_completes :
    initializeConnectors noWriterCfg ["chroma"] = [] ∧
    (runProcess noWriterCfg ["chroma"] psSample sampleInput).1 =
      RunOutcome.completed ∧
    (runProcess noWriterCfg ["chroma"] psSample sampleInput).1 ≠
      RunOutcome.fatal ∧
    (runProcess noWriterCfg ["chroma"] psSample sampleInput).2.sm =
      psSample.sm := by
  refine ⟨rfl, rfl, ?_, rfl⟩
  intro h
  exact RunOutcome.noConfusion h

/-- A `databases` configuration with two configured targets of which
the faiss one fails its post-setup `check_connection()` and is skipped
by `_initialize_connectors`. -/
def skippedTargetCfg : DbsConfig :=
  { targets := ["chroma", "faiss"],
    connections :=
      [("chroma",
        { dbType := some "chroma", outcome := ConnOutcome.ok,
          failsOn := fun _ => false }),
       ("faiss",
        { dbType := some "faiss", outcome := ConnOutcome.checkFails,
          failsOn := fun _ => false })],
    batchSize := 2 }

/-- **C2 counterexample.** `"faiss"` is configured in
`databases.targets`, but after failing its connection check it is not
among the active connectors; `load_data` dispatches the batches —
including one containing an entry of fingerprint `"G"` — to chroma
alone and still marks `"G"` `LOADED`.  So a fingerprint is marked
`LOADED` although a backend configured in `databases.targets` never
received, hence never accepted, any batch containing its entries:
`LOADED` does not require acceptance by every configured backend, only
by every backend that survived initialization. -/
theorem loaded_without_configured_backend :
    "faiss" ∈ skippedTargetCfg.targets ∧
    (initializeConnectors skippedTargetCfg ["chroma", "faiss"]).map
      Connector.name = ["chroma"] ∧
    getStatus
      (loadData (initializeConnectors skippedTargetCfg ["chroma", "faiss"])
        skippedTargetCfg.batchSize emptyState sampleInput) "G" =
      FileStatus.loaded ∧
    ((loadDataFlags (initializeConnectors skippedTargetCfg ["chroma", "faiss"])
        skippedTargetCfg.batchSize sampleInput).2).any
      (fun b => batchHasHash b "G") = true := by
  refine ⟨by decide, by decide, by decide, by decide⟩

/-- Witness for C5 (amended) at the concrete no-writer configuration. -/
theorem zero_writers_not_fatal_witness :
    runProcess noWriterCfg ["chroma"] psSample sampleInput =
      (RunOutcome.completed, psSample) :=
  (zero_writers_not_fatal noWriterCfg ["chroma"] psSample sampleInput).1 rfl

/-- Witness for C8 with two connectors, batch size `2` and three input
chunks: the dispatched batches flatten back to the input, and the
ledger update is the flag fold, starting from the empty state. -/
theorem load_data_batching_witness :
    ((loadDataFlags [connGood, connBad] 2 sampleInput).2).flatten =
      sampleInput.map toDbEntry ∧
    loadData [connGood, connBad] 2 emptyState sampleInput =
      updateFileStatus emptyState
        (loadDataFlags [connGood, connBad] 2 sampleInput).1 :=
  ⟨(load_data_batching [connGood, connBad] 2 sampleInput (by decide)
      (by simp)).1,
    (load_data_batching [connGood, connBad] 2 sampleInput (by decide)
      (by simp)).2.2.2 emptyState⟩

/-- Witness for C2: with the single accepting connector, `"G"` ends up
`LOADED`, and the connector indeed did not raise on the first batch,
which contains an entry of `"G"`. -/
theorem loaded_only_if_all_backends_accepted_witness :
    connGood.failsOn
      [toDbEntry (sampleChunk "F" "F_0"), toDbEntry (sampleChunk "G" "G_0")] =
      false :=
  loaded_only_if_all_backends_accepted [connGood] 2 emptyState sampleInput
    "G" (by simp) (by decide) (by decide)
    [toDbEntry (sampleChunk "F" "F_0"), toDbEntry (sampleChunk "G" "G_0")]
    (by decide)
    ⟨toDbEntry (sampleChunk "G" "G_0"), by decide, rfl⟩
    connGood (List.mem_cons_self _ _)

/-- Witness for C1: `connBad` raises on the first batch, which contains
entries of both `"F"` and `"G"`; `"F"` is reverted to `EMBEDDED` and
the cache is untouched. -/
theorem load_data_partial_failure_reverts_witness :
    getStatus (loadDataP [connGood, connBad] 2 psSample sampleInput).sm "F" =
      FileStatus.embedded ∧
    getStatus (loadDataP [connGood, connBad] 2 psSample sampleInput).sm "F" ≠
      FileStatus.loaded ∧
    (loadDataP [connGood, connBad] 2 psSample sampleInput).cache =
      psSample.cache :=
  load_data_partial_failure_reverts [connGood, connBad] 2 psSample
    sampleInput "F" (by decide)
    ⟨[toDbEntry (sampleChunk "F" "F_0"), toDbEntry (sampleChunk "G" "G_0")],
      by decide,
      ⟨toDbEntry (sampleChunk "F" "F_0"), by decide, rfl⟩,
      connBad, List.mem_cons_of_mem _ (List.mem_cons_self _ _), by decide⟩

end Eless
